import Mathlib

/-!
Shallow embedding of the physics/collision core of `chaos.py`.

The program simulates discs (`Ball`) in a `WIDTH × HEIGHT` arena.  Each ball
stores a position `(x, y)`, an integer radius, a scalar speed `v` and a heading
`angle`; the velocity vector is derived as `(v·cos angle, v·sin angle)` and the
pseudo-mass as `radius³`.  Python floats are modelled by exact reals; Python's
`**0.5` on a non-negative argument is `Real.sqrt`, and `math.atan2` is
`Complex.arg` of the complex number with the given real and imaginary parts.
Randomness (`random.random`, `random.randint`) is modelled by oracle
parameters passed explicitly to the constructor model.
-/

open Classical in
/-- Arena width, from `WIDTH, HEIGHT = 1_000, 1_000`. -/
def WIDTH : ℤ := 1000

/-- Arena height. -/
def HEIGHT : ℤ := 1000

/-- Frames per second, from `FPS = 60`. -/
def FPS : ℤ := 60

/-- Lower radius bound, from `R_MIN, R_MAX = 2, min(WIDTH, HEIGHT) // 4`. -/
def R_MIN : ℤ := 2

/-- Upper radius bound, `min(WIDTH, HEIGHT) // 4`. -/
def R_MAX : ℤ := min WIDTH HEIGHT / 4

/-- Speed cap, from `V_MAX = FPS // 30`. -/
def V_MAX : ℤ := FPS / 30

/-- State of one ball: the mutable physical fields of class `Ball`
(`id` and `color` are identity/presentation data and carry no physics). -/
structure Ball where
  x : ℝ
  y : ℝ
  radius : ℝ
  v : ℝ
  angle : ℝ

/-- Pseudo-mass, property `m`: `radius ** 3`. -/
noncomputable def Ball.m (b : Ball) : ℝ := b.radius ^ 3

/-- Derived horizontal velocity, property `vx`: `v * cos(angle)`. -/
noncomputable def Ball.vx (b : Ball) : ℝ := b.v * Real.cos b.angle

/-- Derived vertical velocity, property `vy`: `v * sin(angle)`. -/
noncomputable def Ball.vy (b : Ball) : ℝ := b.v * Real.sin b.angle

/-- Function `distance(p1, p2)`:
`((p1[0] - p2[0]) ** 2 + (p1[1] - p2[1]) ** 2) ** 0.5`. -/
noncomputable def distance (p1 p2 : ℝ × ℝ) : ℝ :=
  Real.sqrt ((p1.1 - p2.1) ^ 2 + (p1.2 - p2.2) ^ 2)

/-- Method `is_collide`: center distance at most the sum of the radii. -/
noncomputable def Ball.is_collide (b other : Ball) : Prop :=
  distance (b.x, b.y) (other.x, other.y) ≤ b.radius + other.radius

/-- Property `is_outside`: the center left `[0, WIDTH] × [0, HEIGHT]`. -/
def Ball.is_outside (b : Ball) : Prop :=
  b.x < 0 ∨ b.x > (WIDTH : ℝ) ∨ b.y < 0 ∨ b.y > (HEIGHT : ℝ)

/-- Python `math.atan2(y, x)`, which agrees with the principal argument of
the complex number `x + y·i` (both return a value in `(-π, π]`, and both
send `(0, 0)` to `0`). -/
noncomputable def atan2 (y x : ℝ) : ℝ := Complex.arg ⟨x, y⟩

/-- The center distance the collision engine computes for a pair:
`dist = (dx*dx + dy*dy) ** 0.5` with `dx = ball2.x - ball1.x`,
`dy = ball2.y - ball1.y`. -/
noncomputable def engineDist (ball1 ball2 : Ball) : ℝ :=
  Real.sqrt ((ball2.x - ball1.x) * (ball2.x - ball1.x) +
    (ball2.y - ball1.y) * (ball2.y - ball1.y))

open Classical in
/-- The engine's normalisation denominator: the computed distance, with the
degenerate `dist == 0` case replaced by `1`. -/
noncomputable def normDist (ball1 ball2 : Ball) : ℝ :=
  if engineDist ball1 ball2 = 0 then 1 else engineDist ball1 ball2

open Classical in
/-- Horizontal component of the engine's unit normal `nx = dx / dist`,
after the degenerate substitution `dx, dy = 1, 0`. -/
noncomputable def normalX (ball1 ball2 : Ball) : ℝ :=
  (if engineDist ball1 ball2 = 0 then 1 else ball2.x - ball1.x) /
    normDist ball1 ball2

open Classical in
/-- Vertical component of the engine's unit normal `ny = dy / dist`. -/
noncomputable def normalY (ball1 ball2 : Ball) : ℝ :=
  (if engineDist ball1 ball2 = 0 then 0 else ball2.y - ball1.y) /
    normDist ball1 ball2

/-- The engine's `velocity_along_normal`:
`(ball2.vx - ball1.vx) * nx + (ball2.vy - ball1.vy) * ny`. -/
noncomputable def velocityAlongNormal (ball1 ball2 : Ball) : ℝ :=
  (ball2.vx - ball1.vx) * normalX ball1 ball2 +
    (ball2.vy - ball1.vy) * normalY ball1 ball2

open Classical in
/-- One execution of the body of the pair loop in `collisions()` on the pair
`(ball1, ball2)` (lines 27–80 of the source), returning the updated pair:
detection (`dist < min_distance`), the degenerate substitution, positional
correction by half the overlap along the normal, the separating-pair skip
(`velocity_along_normal > 0`), and the elastic impulse with
`restitution = 1.0`, after which each ball's speed is the magnitude of its
new velocity vector and its angle the `atan2` of its components. -/
noncomputable def collidePair (ball1 ball2 : Ball) : Ball × Ball :=
  if engineDist ball1 ball2 < ball1.radius + ball2.radius then
    let nx := normalX ball1 ball2
    let ny := normalY ball1 ball2
    let overlap := (ball1.radius + ball2.radius) - normDist ball1 ball2
    let b1 := { ball1 with x := ball1.x - overlap * nx * 0.5,
                           y := ball1.y - overlap * ny * 0.5 }
    let b2 := { ball2 with x := ball2.x + overlap * nx * 0.5,
                           y := ball2.y + overlap * ny * 0.5 }
    if velocityAlongNormal ball1 ball2 > 0 then (b1, b2)
    else
      let restitution : ℝ := 1.0
      let impulse := 2 * velocityAlongNormal ball1 ball2 / (ball1.m + ball2.m)
      let vx1 := b1.vx + impulse * b2.m * nx * restitution
      let vy1 := b1.vy + impulse * b2.m * ny * restitution
      let vx2 := b2.vx - impulse * b1.m * nx * restitution
      let vy2 := b2.vy - impulse * b1.m * ny * restitution
      ({ b1 with v := Real.sqrt (vx1 ^ 2 + vy1 ^ 2), angle := atan2 vy1 vx1 },
       { b2 with v := Real.sqrt (vx2 ^ 2 + vy2 ^ 2), angle := atan2 vy2 vx2 })
  else (ball1, ball2)

/-- The ordered index pairs `(i, j)`, `i < j < n`, in the iteration order of
the nested loops `for i in range(len(balls)): for j in range(i+1, ...)`. -/
def pairList (n : ℕ) : List (ℕ × ℕ) :=
  (List.range n).flatMap fun i =>
    ((List.range n).filter fun j => decide (i < j)).map fun j => (i, j)

/-- Process the pair at indices `(i, j)` of the live list in place. -/
noncomputable def collideAt (l : List Ball) (ij : ℕ × ℕ) : List Ball :=
  match l[ij.1]?, l[ij.2]? with
  | some a, some b =>
      (l.set ij.1 (collidePair a b).1).set ij.2 (collidePair a b).2
  | _, _ => l

/-- Function `collisions()`: process every unordered pair of the live list
once, in index order, mutating the list in place. -/
noncomputable def collisions (l : List Ball) : List Ball :=
  (pairList l.length).foldl collideAt l

open Classical in
/-- Method `move()`: candidate position from the current velocity, wall
reflection with the gates of the source, then commit. -/
noncomputable def Ball.move (b : Ball) : Ball :=
  let x := b.x + b.v * Real.cos b.angle
  let y := b.y + b.v * Real.sin b.angle
  let a1 :=
    if x - b.radius < 0 ∧ Real.cos b.angle < 0 then Real.pi - b.angle
    else if x + b.radius > (WIDTH : ℝ) ∧ Real.cos b.angle > 0 then
      Real.pi - b.angle
    else b.angle
  let x1 :=
    if x - b.radius < 0 ∧ Real.cos b.angle < 0 then b.x
    else if x + b.radius > (WIDTH : ℝ) ∧ Real.cos b.angle > 0 then b.x
    else x
  let a2 :=
    if y - b.radius < 0 ∧ Real.sin a1 < 0 then -a1
    else if y + b.radius > (HEIGHT : ℝ) ∧ Real.sin a1 > 0 then -a1
    else a1
  let y1 :=
    if y - b.radius < 0 ∧ Real.sin a1 < 0 then b.y
    else if y + b.radius > (HEIGHT : ℝ) ∧ Real.sin a1 > 0 then b.y
    else y
  { b with x := x1, y := y1, angle := a2 }

open Classical in
/-- The description of `move()` in the specification: the candidate position
is computed from the current velocity; a horizontal reflection
(`angle ← π − angle`, x held at its pre-step value) fires when the candidate
disc crosses the left wall while `cos(angle) < 0` or the right wall while
`cos(angle) > 0`; independently, a vertical reflection (`angle ← −angle`,
y held) fires when the candidate disc crosses the top wall while
`sin(angle) < 0` or the bottom wall while `sin(angle) > 0`; both may fire in
one tick, and the speed is unchanged. -/
noncomputable def moveSpec (b : Ball) : Ball :=
  let x := b.x + b.v * Real.cos b.angle
  let y := b.y + b.v * Real.sin b.angle
  let hcond := (x - b.radius < 0 ∧ Real.cos b.angle < 0) ∨
    (x + b.radius > (WIDTH : ℝ) ∧ Real.cos b.angle > 0)
  let vcond := (y - b.radius < 0 ∧ Real.sin b.angle < 0) ∨
    (y + b.radius > (HEIGHT : ℝ) ∧ Real.sin b.angle > 0)
  let a1 := if hcond then Real.pi - b.angle else b.angle
  { x := if hcond then b.x else x
    y := if vcond then b.y else y
    radius := b.radius
    v := b.v
    angle := if vcond then -a1 else a1 }

/-- The center lies in the arena rectangle `[0, WIDTH] × [0, HEIGHT]`. -/
def inArena (b : Ball) : Prop :=
  0 ≤ b.x ∧ b.x ≤ (WIDTH : ℝ) ∧ 0 ≤ b.y ∧ b.y ≤ (HEIGHT : ℝ)

/-- A Python value passed for an optional constructor argument, as far as the
`isinstance` tests of `Ball.__init__` can distinguish it: an `int`, a `float`,
`None` (the default), or any other object. -/
inductive PyArg
  | none
  | int (n : ℤ)
  | float (x : ℝ)
  | other

/-- Python `random.randint(lo, hi)`: some integer in `[lo, hi]`, selected by
the oracle `r` (every value of a well-formed call lies in that range). -/
def randint (lo hi : ℤ) (r : ℤ) : ℤ := lo + r % (hi - lo + 1)

open Classical in
/-- Constructor `Ball.__init__(radius, angle)`.  The random draws are passed
as oracles: `rRadius` selects `randint(R_MIN, R_MAX)`, `rV ∈ [0, 1)` is the
`random()` factor of the speed, `rAngle ∈ [0, 1)` the `random()` factor of
the heading, and `rx`, `ry` select the two `randint` position calls.  A
failing `assert` is an `Except.error`.  An `int` radius must satisfy
`R_MIN <= radius <= R_MAX`; any other radius argument is ignored and a
random radius is drawn.  An `int` or `float` angle must satisfy
`0 <= angle <= 2*pi`; any other angle argument is ignored and a random
heading is drawn.  Then `v = random() * V_MAX`,
`x = randint(radius, WIDTH - radius)`, `y = randint(radius, HEIGHT - radius)`. -/
noncomputable def initBall (radiusArg angleArg : PyArg)
    (rRadius : ℤ) (rV rAngle : ℝ) (rx ry : ℤ) : Except String Ball :=
  let mk : ℤ → ℝ → Except String Ball := fun r a =>
    Except.ok
      { x := (randint r (WIDTH - r) rx : ℝ)
        y := (randint r (HEIGHT - r) ry : ℝ)
        radius := (r : ℝ)
        v := rV * (V_MAX : ℝ)
        angle := a }
  let withRadius : ℤ → Except String Ball := fun r =>
    match angleArg with
    | PyArg.int a =>
        if 0 ≤ (a : ℝ) ∧ (a : ℝ) ≤ 2 * Real.pi then mk r (a : ℝ)
        else Except.error "angle not in range"
    | PyArg.float a =>
        if 0 ≤ a ∧ a ≤ 2 * Real.pi then mk r a
        else Except.error "angle not in range"
    | PyArg.none => mk r (rAngle * (2 * Real.pi))
    | PyArg.other => mk r (rAngle * (2 * Real.pi))
  match radiusArg with
  | PyArg.int n =>
      if R_MIN ≤ n ∧ n ≤ R_MAX then withRadius n
      else Except.error "radius not in range"
  | PyArg.none => withRadius (randint R_MIN R_MAX rRadius)
  | PyArg.float _ => withRadius (randint R_MIN R_MAX rRadius)
  | PyArg.other => withRadius (randint R_MIN R_MAX rRadius)

/-- Live sets reachable by the placement loop of `main`: starting from the
empty list, each accepted candidate was tested with `is_collide` against
every already-accepted ball and rejected the collision, then appended. -/
inductive Placed : List Ball → Prop
  | nil : Placed []
  | snoc (l : List Ball) (b : Ball) (hl : Placed l)
      (h : ∀ a ∈ l, ¬ b.is_collide a) : Placed (l ++ [b])

/-- The detection test of the collision engine: strict inequality against the
sum of the radii (line `if dist < min_distance`). -/
def engineCollides (ball1 ball2 : Ball) : Prop :=
  engineDist ball1 ball2 < ball1.radius + ball2.radius

/-! Helper lemmas. -/

lemma sqrt_sq_mk (xv yv : ℝ) :
    Real.sqrt (xv ^ 2 + yv ^ 2) = Complex.abs ⟨xv, yv⟩ := by
  rw [Complex.abs_apply, Complex.normSq_mk]
  ring_nf

lemma sqrt_mul_cos_atan2 (yv xv : ℝ) :
    Real.sqrt (xv ^ 2 + yv ^ 2) * Real.cos (atan2 yv xv) = xv := by
  rw [sqrt_sq_mk, atan2, Complex.abs_mul_cos_arg]

lemma sqrt_mul_sin_atan2 (yv xv : ℝ) :
    Real.sqrt (xv ^ 2 + yv ^ 2) * Real.sin (atan2 yv xv) = yv := by
  rw [sqrt_sq_mk, atan2, Complex.abs_mul_sin_arg]

lemma engineDist_nonneg (b1 b2 : Ball) : 0 ≤ engineDist b1 b2 :=
  Real.sqrt_nonneg _

lemma engineDist_sq (b1 b2 : Ball) :
    engineDist b1 b2 ^ 2 =
      (b2.x - b1.x) * (b2.x - b1.x) + (b2.y - b1.y) * (b2.y - b1.y) := by
  rw [engineDist,
    Real.sq_sqrt (add_nonneg (mul_self_nonneg _) (mul_self_nonneg _))]

lemma distance_eq_engineDist (b1 b2 : Ball) :
    distance (b1.x, b1.y) (b2.x, b2.y) = engineDist b1 b2 := by
  rw [distance, engineDist]
  congr 1
  ring

lemma normDist_pos (b1 b2 : Ball) : 0 < normDist b1 b2 := by
  rw [normDist]
  split_ifs with h
  · norm_num
  · exact lt_of_le_of_ne (engineDist_nonneg b1 b2) (Ne.symm h)

lemma normal_sq (b1 b2 : Ball) :
    normalX b1 b2 ^ 2 + normalY b1 b2 ^ 2 = 1 := by
  by_cases h : engineDist b1 b2 = 0
  · simp [normalX, normalY, normDist, h]
  · have hd : 0 < engineDist b1 b2 :=
      lt_of_le_of_ne (engineDist_nonneg b1 b2) (Ne.symm h)
    rw [normalX, normalY, normDist, if_neg h, if_neg h, if_neg h,
      div_pow, div_pow, div_add_div_same, div_eq_one_iff_eq (pow_ne_zero 2 h)]
    rw [engineDist_sq]
    ring

lemma m_pos {b : Ball} (h : 0 < b.radius) : 0 < b.m := by
  rw [Ball.m]; positivity

/-! Theorems for the claims. -/

/-- C6: the placement test `is_collide` holds exactly when the center
distance is at most the sum of the radii, the engine detects a collision
exactly when the center distance is strictly below the sum (so the engine
leaves a pair untouched otherwise), and the two thresholds differ exactly
at equality. -/
theorem collide_threshold_asymmetry (b1 b2 : Ball) :
    (b1.is_collide b2 ↔ engineDist b1 b2 ≤ b1.radius + b2.radius) ∧
    (engineCollides b1 b2 ↔ engineDist b1 b2 < b1.radius + b2.radius) ∧
    (¬ engineCollides b1 b2 → collidePair b1 b2 = (b1, b2)) ∧
    (b1.is_collide b2 ∧ ¬ engineCollides b1 b2 ↔
      engineDist b1 b2 = b1.radius + b2.radius) := by
  refine ⟨?_, Iff.rfl, ?_, ?_⟩
  · rw [Ball.is_collide, distance_eq_engineDist]
  · intro h
    unfold engineCollides at h
    rw [collidePair, if_neg h]
  · rw [Ball.is_collide, distance_eq_engineDist, engineCollides]
    constructor
    · rintro ⟨hle, hnlt⟩
      exact le_antisymm hle (not_lt.mp hnlt)
    · intro h
      exact ⟨le_of_eq h, by rw [h]; exact lt_irrefl _⟩

lemma engineDist_eval (b1 b2 : Ball) (d : ℝ) (hd : 0 ≤ d)
    (h : (b2.x - b1.x) * (b2.x - b1.x) + (b2.y - b1.y) * (b2.y - b1.y) = d ^ 2) :
    engineDist b1 b2 = d := by
  rw [engineDist, h, Real.sqrt_sq hd]

/-- A pair of balls of radius 2 whose centers are at distance exactly 4. -/
noncomputable def ballTangentA : Ball := ⟨0, 0, 2, 0, 0⟩

/-- Second ball of the tangent pair. -/
noncomputable def ballTangentB : Ball := ⟨4, 0, 2, 0, 0⟩

/-- Witness for C6: an exactly tangent pair is a placement-time collision but
the engine leaves it untouched. -/
theorem collide_threshold_asymmetry_witness :
    ballTangentA.is_collide ballTangentB ∧
    collidePair ballTangentA ballTangentB = (ballTangentA, ballTangentB) := by
  have hd : engineDist ballTangentA ballTangentB = 4 :=
    engineDist_eval _ _ 4 (by norm_num)
      (by norm_num [ballTangentA, ballTangentB])
  have hsum : ballTangentA.radius + ballTangentB.radius = 4 := by
    norm_num [ballTangentA, ballTangentB]
  constructor
  · exact (collide_threshold_asymmetry ballTangentA ballTangentB).1.mpr
      (by rw [hd, hsum])
  · exact (collide_threshold_asymmetry ballTangentA ballTangentB).2.2.1
      (by unfold engineCollides; rw [hd, hsum]; exact lt_irrefl 4)

/-- C8: for well-formed bodies (positive radii) the normalisation divisor
is never zero and the impulse divisor `m1 + m2` is never zero, and when the
centers coincide the engine substitutes the fixed normal `(1, 0)` with
substituted distance `1`. -/
theorem degenerate_centers_safe (b1 b2 : Ball)
    (h1 : 0 < b1.radius) (h2 : 0 < b2.radius) :
    normDist b1 b2 ≠ 0 ∧ b1.m + b2.m ≠ 0 ∧
    (b1.x = b2.x → b1.y = b2.y →
      normDist b1 b2 = 1 ∧ normalX b1 b2 = 1 ∧ normalY b1 b2 = 0) := by
  refine ⟨ne_of_gt (normDist_pos b1 b2),
    ne_of_gt (add_pos (m_pos h1) (m_pos h2)), ?_⟩
  intro hx hy
  have h0 : engineDist b1 b2 = 0 := by
    rw [engineDist, hx, hy]
    simp
  simp [normalX, normalY, normDist, h0]

/-- A ball sitting at `(5, 5)`. -/
noncomputable def ballCoincA : Ball := ⟨5, 5, 2, 1, 0⟩

/-- A second ball with the same center `(5, 5)`. -/
noncomputable def ballCoincB : Ball := ⟨5, 5, 3, 1, 0⟩

/-- Witness for C8: a concrete coincident-center pair gets the fixed normal. -/
theorem degenerate_centers_safe_witness :
    normDist ballCoincA ballCoincB = 1 ∧ normalX ballCoincA ballCoincB = 1 ∧
    normalY ballCoincA ballCoincB = 0 :=
  (degenerate_centers_safe ballCoincA ballCoincB
    (by norm_num [ballCoincA]) (by norm_num [ballCoincB])).2.2
    (by norm_num [ballCoincA, ballCoincB]) (by norm_num [ballCoincA, ballCoincB])

/-- C7: an overlapping pair that is already separating
(`velocity_along_normal > 0`) receives the positional correction — each body
is pushed half the overlap along the normal — but its speed and heading are
unchanged. -/
theorem separating_pair_positional_only (b1 b2 : Ball)
    (hov : engineDist b1 b2 < b1.radius + b2.radius)
    (hsep : velocityAlongNormal b1 b2 > 0) :
    (collidePair b1 b2).1.v = b1.v ∧ (collidePair b1 b2).1.angle = b1.angle ∧
    (collidePair b1 b2).2.v = b2.v ∧ (collidePair b1 b2).2.angle = b2.angle ∧
    (collidePair b1 b2).1.x =
      b1.x - (b1.radius + b2.radius - normDist b1 b2) * normalX b1 b2 * 0.5 ∧
    (collidePair b1 b2).1.y =
      b1.y - (b1.radius + b2.radius - normDist b1 b2) * normalY b1 b2 * 0.5 ∧
    (collidePair b1 b2).2.x =
      b2.x + (b1.radius + b2.radius - normDist b1 b2) * normalX b1 b2 * 0.5 ∧
    (collidePair b1 b2).2.y =
      b2.y + (b1.radius + b2.radius - normDist b1 b2) * normalY b1 b2 * 0.5 := by
  rw [collidePair, if_pos hov, if_pos hsep]
  exact ⟨rfl, rfl, rfl, rfl, rfl, rfl, rfl, rfl⟩

/-- Left ball of an overlapping but separating pair (moving left). -/
noncomputable def ballSepA : Ball := ⟨0, 0, 2, 1, Real.pi⟩

/-- Right ball of the separating pair (moving right). -/
noncomputable def ballSepB : Ball := ⟨1, 0, 2, 1, 0⟩

lemma ballSep_dist : engineDist ballSepA ballSepB = 1 :=
  engineDist_eval _ _ 1 (by norm_num) (by norm_num [ballSepA, ballSepB])

lemma ballSep_overlap :
    engineDist ballSepA ballSepB < ballSepA.radius + ballSepB.radius := by
  rw [ballSep_dist]
  norm_num [ballSepA, ballSepB]

lemma ballSep_separating : velocityAlongNormal ballSepA ballSepB > 0 := by
  rw [velocityAlongNormal, normalX, normalY, normDist, ballSep_dist]
  norm_num [Ball.vx, Ball.vy, ballSepA, ballSepB]

/-- The engine's `impulse`: `2 * velocity_along_normal / (ball1.m + ball2.m)`. -/
noncomputable def impulseVal (b1 b2 : Ball) : ℝ :=
  2 * velocityAlongNormal b1 b2 / (b1.m + b2.m)

/-- The engine's `vx1` after the impulse (restitution `1.0`). -/
noncomputable def newVx1 (b1 b2 : Ball) : ℝ :=
  b1.vx + impulseVal b1 b2 * b2.m * normalX b1 b2 * 1.0

/-- The engine's `vy1` after the impulse. -/
noncomputable def newVy1 (b1 b2 : Ball) : ℝ :=
  b1.vy + impulseVal b1 b2 * b2.m * normalY b1 b2 * 1.0

/-- The engine's `vx2` after the impulse. -/
noncomputable def newVx2 (b1 b2 : Ball) : ℝ :=
  b2.vx - impulseVal b1 b2 * b1.m * normalX b1 b2 * 1.0

/-- The engine's `vy2` after the impulse. -/
noncomputable def newVy2 (b1 b2 : Ball) : ℝ :=
  b2.vy - impulseVal b1 b2 * b1.m * normalY b1 b2 * 1.0

lemma collidePair_approach (b1 b2 : Ball)
    (hov : engineDist b1 b2 < b1.radius + b2.radius)
    (happ : ¬ velocityAlongNormal b1 b2 > 0) :
    collidePair b1 b2 =
      ({ x := b1.x - (b1.radius + b2.radius - normDist b1 b2) *
              normalX b1 b2 * 0.5,
         y := b1.y - (b1.radius + b2.radius - normDist b1 b2) *
              normalY b1 b2 * 0.5,
         radius := b1.radius,
         v := Real.sqrt (newVx1 b1 b2 ^ 2 + newVy1 b1 b2 ^ 2),
         angle := atan2 (newVy1 b1 b2) (newVx1 b1 b2) },
       { x := b2.x + (b1.radius + b2.radius - normDist b1 b2) *
              normalX b1 b2 * 0.5,
         y := b2.y + (b1.radius + b2.radius - normDist b1 b2) *
              normalY b1 b2 * 0.5,
         radius := b2.radius,
         v := Real.sqrt (newVx2 b1 b2 ^ 2 + newVy2 b1 b2 ^ 2),
         angle := atan2 (newVy2 b1 b2) (newVx2 b1 b2) }) := by
  rw [collidePair, if_pos hov, if_neg happ]
  rfl

lemma vx_sq_add_vy_sq (b : Ball) : b.vx ^ 2 + b.vy ^ 2 = b.v ^ 2 := by
  rw [Ball.vx, Ball.vy]
  linear_combination b.v ^ 2 * Real.cos_sq_add_sin_sq b.angle

lemma elastic_core (m1 m2 u1x u1y u2x u2y n1 n2 P J : ℝ)
    (hn : n1 ^ 2 + n2 ^ 2 = 1)
    (hP : P = (u2x - u1x) * n1 + (u2y - u1y) * n2)
    (hJM : J * (m1 + m2) = 2 * P) :
    m1 * ((u1x + J * m2 * n1) ^ 2 + (u1y + J * m2 * n2) ^ 2) +
      m2 * ((u2x - J * m1 * n1) ^ 2 + (u2y - J * m1 * n2) ^ 2) =
    m1 * (u1x ^ 2 + u1y ^ 2) + m2 * (u2x ^ 2 + u2y ^ 2) := by
  linear_combination (J ^ 2 * m1 * m2 * (m1 + m2)) * hn +
    (J * m1 * m2) * hJM + (2 * J * m1 * m2) * hP

lemma collidePair_fst_m (b1 b2 : Ball)
    (hov : engineDist b1 b2 < b1.radius + b2.radius)
    (happ : ¬ velocityAlongNormal b1 b2 > 0) :
    (collidePair b1 b2).1.m = b1.m := by
  rw [collidePair_approach b1 b2 hov happ]
  rfl

lemma collidePair_snd_m (b1 b2 : Ball)
    (hov : engineDist b1 b2 < b1.radius + b2.radius)
    (happ : ¬ velocityAlongNormal b1 b2 > 0) :
    (collidePair b1 b2).2.m = b2.m := by
  rw [collidePair_approach b1 b2 hov happ]
  rfl

lemma collidePair_fst_vx (b1 b2 : Ball)
    (hov : engineDist b1 b2 < b1.radius + b2.radius)
    (happ : ¬ velocityAlongNormal b1 b2 > 0) :
    (collidePair b1 b2).1.vx = newVx1 b1 b2 := by
  simp only [collidePair_approach b1 b2 hov happ, Ball.vx]
  exact sqrt_mul_cos_atan2 _ _

lemma collidePair_fst_vy (b1 b2 : Ball)
    (hov : engineDist b1 b2 < b1.radius + b2.radius)
    (happ : ¬ velocityAlongNormal b1 b2 > 0) :
    (collidePair b1 b2).1.vy = newVy1 b1 b2 := by
  simp only [collidePair_approach b1 b2 hov happ, Ball.vy]
  exact sqrt_mul_sin_atan2 _ _

lemma collidePair_snd_vx (b1 b2 : Ball)
    (hov : engineDist b1 b2 < b1.radius + b2.radius)
    (happ : ¬ velocityAlongNormal b1 b2 > 0) :
    (collidePair b1 b2).2.vx = newVx2 b1 b2 := by
  simp only [collidePair_approach b1 b2 hov happ, Ball.vx]
  exact sqrt_mul_cos_atan2 _ _

lemma collidePair_snd_vy (b1 b2 : Ball)
    (hov : engineDist b1 b2 < b1.radius + b2.radius)
    (happ : ¬ velocityAlongNormal b1 b2 > 0) :
    (collidePair b1 b2).2.vy = newVy2 b1 b2 := by
  simp only [collidePair_approach b1 b2 hov happ, Ball.vy]
  exact sqrt_mul_sin_atan2 _ _

lemma collidePair_fst_vsq (b1 b2 : Ball)
    (hov : engineDist b1 b2 < b1.radius + b2.radius)
    (happ : ¬ velocityAlongNormal b1 b2 > 0) :
    (collidePair b1 b2).1.v ^ 2 = newVx1 b1 b2 ^ 2 + newVy1 b1 b2 ^ 2 := by
  simp only [collidePair_approach b1 b2 hov happ]
  exact Real.sq_sqrt (by positivity)

lemma collidePair_snd_vsq (b1 b2 : Ball)
    (hov : engineDist b1 b2 < b1.radius + b2.radius)
    (happ : ¬ velocityAlongNormal b1 b2 > 0) :
    (collidePair b1 b2).2.v ^ 2 = newVx2 b1 b2 ^ 2 + newVy2 b1 b2 ^ 2 := by
  simp only [collidePair_approach b1 b2 hov happ]
  exact Real.sq_sqrt (by positivity)

lemma collidePair_fst_x (b1 b2 : Ball)
    (hov : engineDist b1 b2 < b1.radius + b2.radius)
    (happ : ¬ velocityAlongNormal b1 b2 > 0) :
    (collidePair b1 b2).1.x =
      b1.x - (b1.radius + b2.radius - normDist b1 b2) * normalX b1 b2 * 0.5 := by
  rw [collidePair_approach b1 b2 hov happ]

lemma collidePair_fst_y (b1 b2 : Ball)
    (hov : engineDist b1 b2 < b1.radius + b2.radius)
    (happ : ¬ velocityAlongNormal b1 b2 > 0) :
    (collidePair b1 b2).1.y =
      b1.y - (b1.radius + b2.radius - normDist b1 b2) * normalY b1 b2 * 0.5 := by
  rw [collidePair_approach b1 b2 hov happ]

lemma collidePair_snd_x (b1 b2 : Ball)
    (hov : engineDist b1 b2 < b1.radius + b2.radius)
    (happ : ¬ velocityAlongNormal b1 b2 > 0) :
    (collidePair b1 b2).2.x =
      b2.x + (b1.radius + b2.radius - normDist b1 b2) * normalX b1 b2 * 0.5 := by
  rw [collidePair_approach b1 b2 hov happ]

lemma collidePair_snd_y (b1 b2 : Ball)
    (hov : engineDist b1 b2 < b1.radius + b2.radius)
    (happ : ¬ velocityAlongNormal b1 b2 > 0) :
    (collidePair b1 b2).2.y =
      b2.y + (b1.radius + b2.radius - normDist b1 b2) * normalY b1 b2 * 0.5 := by
  rw [collidePair_approach b1 b2 hov happ]

/-- C1: for an overlapping, approaching pair of well-formed bodies processed
once by the engine, total momentum (both components of `Σ pseudo-mass ·
velocity`) and total kinetic energy (`Σ ½ · pseudo-mass · speed²`) are
exactly conserved. -/
theorem momentum_energy_conserved (b1 b2 : Ball)
    (h1 : 0 < b1.radius) (h2 : 0 < b2.radius)
    (hov : engineDist b1 b2 < b1.radius + b2.radius)
    (happ : velocityAlongNormal b1 b2 ≤ 0) :
    (collidePair b1 b2).1.m * (collidePair b1 b2).1.vx +
        (collidePair b1 b2).2.m * (collidePair b1 b2).2.vx =
      b1.m * b1.vx + b2.m * b2.vx ∧
    (collidePair b1 b2).1.m * (collidePair b1 b2).1.vy +
        (collidePair b1 b2).2.m * (collidePair b1 b2).2.vy =
      b1.m * b1.vy + b2.m * b2.vy ∧
    0.5 * (collidePair b1 b2).1.m * (collidePair b1 b2).1.v ^ 2 +
        0.5 * (collidePair b1 b2).2.m * (collidePair b1 b2).2.v ^ 2 =
      0.5 * b1.m * b1.v ^ 2 + 0.5 * b2.m * b2.v ^ 2 := by
  have happ' : ¬ velocityAlongNormal b1 b2 > 0 := not_lt.mpr happ
  have hm : b1.m + b2.m ≠ 0 := ne_of_gt (add_pos (m_pos h1) (m_pos h2))
  have hJM : impulseVal b1 b2 * (b1.m + b2.m) =
      2 * velocityAlongNormal b1 b2 := by
    rw [impulseVal, div_mul_cancel₀ _ hm]
  have hP : velocityAlongNormal b1 b2 =
      (b2.vx - b1.vx) * normalX b1 b2 + (b2.vy - b1.vy) * normalY b1 b2 := rfl
  have hn := normal_sq b1 b2
  rw [collidePair_fst_m b1 b2 hov happ', collidePair_snd_m b1 b2 hov happ',
    collidePair_fst_vx b1 b2 hov happ', collidePair_snd_vx b1 b2 hov happ',
    collidePair_fst_vy b1 b2 hov happ', collidePair_snd_vy b1 b2 hov happ',
    collidePair_fst_vsq b1 b2 hov happ', collidePair_snd_vsq b1 b2 hov happ']
  refine ⟨?_, ?_, ?_⟩
  · simp only [newVx1, newVx2]
    ring
  · simp only [newVy1, newVy2]
    ring
  · have hcore := elastic_core b1.m b2.m b1.vx b1.vy b2.vx b2.vy
      (normalX b1 b2) (normalY b1 b2) (velocityAlongNormal b1 b2)
      (impulseVal b1 b2) hn hP hJM
    rw [← vx_sq_add_vy_sq b1, ← vx_sq_add_vy_sq b2]
    simp only [newVx1, newVy1, newVx2, newVy2]
    linear_combination 0.5 * hcore

/-- The example ball at `(100, 100)`, radius `10`, velocity `(5, 0)`. -/
noncomputable def ballHeadA : Ball := ⟨100, 100, 10, 5, 0⟩

/-- The example ball at `(115, 100)`, radius `10`, velocity `(-5, 0)`
(speed `5`, heading `π`). -/
noncomputable def ballHeadB : Ball := ⟨115, 100, 10, 5, Real.pi⟩

lemma ballHead_dist : engineDist ballHeadA ballHeadB = 15 :=
  engineDist_eval _ _ 15 (by norm_num) (by norm_num [ballHeadA, ballHeadB])

lemma ballHead_normDist : normDist ballHeadA ballHeadB = 15 := by
  rw [normDist, ballHead_dist]
  norm_num

lemma ballHead_normalX : normalX ballHeadA ballHeadB = 1 := by
  rw [normalX, normDist, ballHead_dist]
  norm_num [ballHeadA, ballHeadB]

lemma ballHead_normalY : normalY ballHeadA ballHeadB = 0 := by
  rw [normalY, normDist, ballHead_dist]
  norm_num [ballHeadA, ballHeadB]

lemma ballHead_vxA : ballHeadA.vx = 5 := by
  norm_num [Ball.vx, ballHeadA]

lemma ballHead_vyA : ballHeadA.vy = 0 := by
  norm_num [Ball.vy, ballHeadA]

lemma ballHead_vxB : ballHeadB.vx = -5 := by
  norm_num [Ball.vx, ballHeadB, Real.cos_pi]

lemma ballHead_vyB : ballHeadB.vy = 0 := by
  norm_num [Ball.vy, ballHeadB, Real.sin_pi]

lemma ballHead_mA : ballHeadA.m = 1000 := by
  norm_num [Ball.m, ballHeadA]

lemma ballHead_mB : ballHeadB.m = 1000 := by
  norm_num [Ball.m, ballHeadB]

lemma ballHead_van : velocityAlongNormal ballHeadA ballHeadB = -10 := by
  rw [velocityAlongNormal, ballHead_normalX, ballHead_normalY,
    ballHead_vxA, ballHead_vxB, ballHead_vyA, ballHead_vyB]
  norm_num

lemma ballHead_overlap :
    engineDist ballHeadA ballHeadB < ballHeadA.radius + ballHeadB.radius := by
  rw [ballHead_dist]
  norm_num [ballHeadA, ballHeadB]

lemma ballHead_approach : velocityAlongNormal ballHeadA ballHeadB ≤ 0 := by
  rw [ballHead_van]
  norm_num

lemma ballHead_impulse : impulseVal ballHeadA ballHeadB = -(1 / 100) := by
  rw [impulseVal, ballHead_van, ballHead_mA, ballHead_mB]
  norm_num

lemma ballHead_newVx1 : newVx1 ballHeadA ballHeadB = -5 := by
  rw [newVx1, ballHead_impulse, ballHead_mB, ballHead_normalX, ballHead_vxA]
  norm_num

lemma ballHead_newVy1 : newVy1 ballHeadA ballHeadB = 0 := by
  rw [newVy1, ballHead_impulse, ballHead_mB, ballHead_normalY, ballHead_vyA]
  norm_num

lemma ballHead_newVx2 : newVx2 ballHeadA ballHeadB = 5 := by
  rw [newVx2, ballHead_impulse, ballHead_mA, ballHead_normalX, ballHead_vxB]
  norm_num

lemma ballHead_newVy2 : newVy2 ballHeadA ballHeadB = 0 := by
  rw [newVy2, ballHead_impulse, ballHead_mA, ballHead_normalY, ballHead_vyB]
  norm_num

/-- Witness for C1: conservation holds on the concrete head-on pair of the
worked example. -/
theorem momentum_energy_conserved_witness :
    (collidePair ballHeadA ballHeadB).1.m * (collidePair ballHeadA ballHeadB).1.vx +
        (collidePair ballHeadA ballHeadB).2.m * (collidePair ballHeadA ballHeadB).2.vx =
      ballHeadA.m * ballHeadA.vx + ballHeadB.m * ballHeadB.vx ∧
    (collidePair ballHeadA ballHeadB).1.m * (collidePair ballHeadA ballHeadB).1.vy +
        (collidePair ballHeadA ballHeadB).2.m * (collidePair ballHeadA ballHeadB).2.vy =
      ballHeadA.m * ballHeadA.vy + ballHeadB.m * ballHeadB.vy ∧
    0.5 * (collidePair ballHeadA ballHeadB).1.m *
          (collidePair ballHeadA ballHeadB).1.v ^ 2 +
        0.5 * (collidePair ballHeadA ballHeadB).2.m *
          (collidePair ballHeadA ballHeadB).2.v ^ 2 =
      0.5 * ballHeadA.m * ballHeadA.v ^ 2 + 0.5 * ballHeadB.m * ballHeadB.v ^ 2 :=
  momentum_energy_conserved ballHeadA ballHeadB
    (by norm_num [ballHeadA]) (by norm_num [ballHeadB])
    ballHead_overlap ballHead_approach

lemma collisions_pair (a b : Ball) :
    collisions [a, b] = [(collidePair a b).1, (collidePair a b).2] := by
  rw [collisions]
  rw [show pairList [a, b].length = [(0, 1)] from rfl]
  simp [collideAt]

/-- C2: one pass of the collision engine over the two-ball live set of the
worked example (radius 10, pseudo-mass 1000 each, centers `(100,100)` and
`(115,100)`, velocities `(5,0)` and `(-5,0)`) swaps the velocities to
`(-5,0)` and `(5,0)` exactly, and the center distance after positional
correction is exactly `20`, the sum of the radii. -/
theorem head_on_example :
    collisions [ballHeadA, ballHeadB] =
      [(collidePair ballHeadA ballHeadB).1, (collidePair ballHeadA ballHeadB).2] ∧
    ballHeadA.m = 1000 ∧ ballHeadB.m = 1000 ∧
    (collidePair ballHeadA ballHeadB).1.vx = -5 ∧
    (collidePair ballHeadA ballHeadB).1.vy = 0 ∧
    (collidePair ballHeadA ballHeadB).2.vx = 5 ∧
    (collidePair ballHeadA ballHeadB).2.vy = 0 ∧
    distance ((collidePair ballHeadA ballHeadB).1.x,
        (collidePair ballHeadA ballHeadB).1.y)
      ((collidePair ballHeadA ballHeadB).2.x,
        (collidePair ballHeadA ballHeadB).2.y) = 20 ∧
    ballHeadA.radius + ballHeadB.radius = 20 := by
  have happ' : ¬ velocityAlongNormal ballHeadA ballHeadB > 0 :=
    not_lt.mpr ballHead_approach
  have hx1 : (collidePair ballHeadA ballHeadB).1.x = 97.5 := by
    rw [collidePair_fst_x ballHeadA ballHeadB ballHead_overlap happ',
      ballHead_normDist, ballHead_normalX]
    norm_num [ballHeadA, ballHeadB]
  have hy1 : (collidePair ballHeadA ballHeadB).1.y = 100 := by
    rw [collidePair_fst_y ballHeadA ballHeadB ballHead_overlap happ',
      ballHead_normDist, ballHead_normalY]
    norm_num [ballHeadA, ballHeadB]
  have hx2 : (collidePair ballHeadA ballHeadB).2.x = 117.5 := by
    rw [collidePair_snd_x ballHeadA ballHeadB ballHead_overlap happ',
      ballHead_normDist, ballHead_normalX]
    norm_num [ballHeadA, ballHeadB]
  have hy2 : (collidePair ballHeadA ballHeadB).2.y = 100 := by
    rw [collidePair_snd_y ballHeadA ballHeadB ballHead_overlap happ',
      ballHead_normDist, ballHead_normalY]
    norm_num [ballHeadA, ballHeadB]
  refine ⟨collisions_pair ballHeadA ballHeadB, ballHead_mA, ballHead_mB,
    ?_, ?_, ?_, ?_, ?_, by norm_num [ballHeadA, ballHeadB]⟩
  · rw [collidePair_fst_vx ballHeadA ballHeadB ballHead_overlap happ']
    exact ballHead_newVx1
  · rw [collidePair_fst_vy ballHeadA ballHeadB ballHead_overlap happ']
    exact ballHead_newVy1
  · rw [collidePair_snd_vx ballHeadA ballHeadB ballHead_overlap happ']
    exact ballHead_newVx2
  · rw [collidePair_snd_vy ballHeadA ballHeadB ballHead_overlap happ']
    exact ballHead_newVy2
  · rw [hx1, hy1, hx2, hy2, distance]
    rw [show ((97.5 : ℝ) - 117.5) ^ 2 + ((100 : ℝ) - 100) ^ 2 = 20 ^ 2 by
      norm_num]
    exact Real.sqrt_sq (by norm_num)

/-- Witness for C7 at a concrete overlapping, separating pair. -/
theorem separating_pair_positional_only_witness :
    (collidePair ballSepA ballSepB).1.v = ballSepA.v ∧
    (collidePair ballSepA ballSepB).1.angle = ballSepA.angle ∧
    (collidePair ballSepA ballSepB).2.v = ballSepB.v ∧
    (collidePair ballSepA ballSepB).2.angle = ballSepB.angle ∧
    (collidePair ballSepA ballSepB).1.x =
      ballSepA.x - (ballSepA.radius + ballSepB.radius -
        normDist ballSepA ballSepB) * normalX ballSepA ballSepB * 0.5 ∧
    (collidePair ballSepA ballSepB).1.y =
      ballSepA.y - (ballSepA.radius + ballSepB.radius -
        normDist ballSepA ballSepB) * normalY ballSepA ballSepB * 0.5 ∧
    (collidePair ballSepA ballSepB).2.x =
      ballSepB.x + (ballSepA.radius + ballSepB.radius -
        normDist ballSepA ballSepB) * normalX ballSepA ballSepB * 0.5 ∧
    (collidePair ballSepA ballSepB).2.y =
      ballSepB.y + (ballSepA.radius + ballSepB.radius -
        normDist ballSepA ballSepB) * normalY ballSepA ballSepB * 0.5 :=
  separating_pair_positional_only ballSepA ballSepB
    ballSep_overlap ballSep_separating

lemma sin_ite (p q : Prop) [Decidable p] [Decidable q] (a : ℝ) :
    Real.sin (if p then Real.pi - a else if q then Real.pi - a else a) =
      Real.sin a := by
  split_ifs <;> simp [Real.sin_pi_sub]

lemma move_v (b : Ball) : b.move.v = b.v := rfl

lemma move_radius (b : Ball) : b.move.radius = b.radius := rfl

lemma move_preserves_inArena (b : Ball) (hv : 0 ≤ b.v) (hr : 0 ≤ b.radius)
    (h : inArena b) : inArena b.move := by
  obtain ⟨hx0, hxW, hy0, hyH⟩ := h
  simp only [Ball.move, inArena, sin_ite]
  refine ⟨?_, ?_, ?_, ?_⟩
  · split_ifs with h1 h2
    · exact hx0
    · exact hx0
    · by_contra hneg
      push_neg at hneg
      apply h1
      refine ⟨by linarith, ?_⟩
      rcases lt_or_le (Real.cos b.angle) 0 with hc | hc
      · exact hc
      · exact absurd (mul_nonneg hv hc) (by intro hge; linarith)
  · split_ifs with h1 h2
    · exact hxW
    · exact hxW
    · by_contra hneg
      push_neg at hneg
      apply h2
      refine ⟨by linarith, ?_⟩
      rcases lt_or_le 0 (Real.cos b.angle) with hc | hc
      · exact hc
      · exact absurd (mul_nonpos_of_nonneg_of_nonpos hv hc)
          (by intro hle; linarith)
  · split_ifs with h1 h2
    · exact hy0
    · exact hy0
    · by_contra hneg
      push_neg at hneg
      apply h1
      refine ⟨by linarith, ?_⟩
      rcases lt_or_le (Real.sin b.angle) 0 with hc | hc
      · exact hc
      · exact absurd (mul_nonneg hv hc) (by intro hge; linarith)
  · split_ifs with h1 h2
    · exact hyH
    · exact hyH
    · by_contra hneg
      push_neg at hneg
      apply h2
      refine ⟨by linarith, ?_⟩
      rcases lt_or_le 0 (Real.sin b.angle) with hc | hc
      · exact hc
      · exact absurd (mul_nonpos_of_nonneg_of_nonpos hv hc)
          (by intro hle; linarith)

lemma inArena_not_outside (b : Ball) (h : inArena b) : ¬ b.is_outside := by
  obtain ⟨hx0, hxW, hy0, hyH⟩ := h
  rw [Ball.is_outside]
  push_neg
  exact ⟨hx0, hxW, hy0, hyH⟩

/-- C3: a single well-formed body (non-negative speed and radius) whose
center starts inside the arena keeps its center inside `[0, WIDTH] ×
[0, HEIGHT]` after any number of `move()` steps, so it is never culled by
`is_outside`. -/
theorem wall_containment (n : ℕ) :
    ∀ b : Ball, 0 ≤ b.v → 0 ≤ b.radius → inArena b →
      inArena (Ball.move^[n] b) ∧ ¬ (Ball.move^[n] b).is_outside := by
  induction n with
  | zero =>
      intro b _ _ h
      exact ⟨by simpa using h, by simpa using inArena_not_outside b h⟩
  | succ k ih =>
      intro b hv hr h
      rw [Function.iterate_succ_apply]
      exact ih b.move (by rw [move_v]; exact hv)
        (by rw [move_radius]; exact hr)
        (move_preserves_inArena b hv hr h)

/-- Ball used by the containment witness. -/
noncomputable def ballMid : Ball := ⟨500, 500, 10, 1, 0⟩

/-- Witness for C3 at a concrete ball and three ticks. -/
theorem wall_containment_witness :
    inArena (Ball.move^[3] ballMid) ∧ ¬ (Ball.move^[3] ballMid).is_outside :=
  wall_containment 3 ballMid (by norm_num [ballMid]) (by norm_num [ballMid])
    (by norm_num [inArena, ballMid, WIDTH, HEIGHT])

set_option maxHeartbeats 1000000 in
/-- C4: `move()` behaves exactly as the specification describes — candidate
position from the current velocity, horizontal reflection `π − angle` with x
held gated on the sign of `cos(angle)`, vertical reflection `−angle` with y
held gated on the sign of `sin(angle)`, the two checks independent (both may
fire in one tick), and the speed unchanged. -/
theorem move_matches_spec (b : Ball) :
    b.move = moveSpec b ∧ b.move.v = b.v := by
  refine ⟨?_, rfl⟩
  simp only [Ball.move, moveSpec]
  rw [Ball.mk.injEq, sin_ite]
  by_cases hc1 :
      b.x + b.v * Real.cos b.angle - b.radius < 0 ∧ Real.cos b.angle < 0 <;>
  by_cases hc2 :
      b.x + b.v * Real.cos b.angle + b.radius > (WIDTH : ℝ) ∧
        Real.cos b.angle > 0 <;>
  by_cases hc3 :
      b.y + b.v * Real.sin b.angle - b.radius < 0 ∧ Real.sin b.angle < 0 <;>
  by_cases hc4 :
      b.y + b.v * Real.sin b.angle + b.radius > (HEIGHT : ℝ) ∧
        Real.sin b.angle > 0 <;>
  simp only [hc1, hc2, hc3, hc4, if_true, if_false, and_true, true_and,
    and_false, false_and, and_self, or_true, true_or, or_false, false_or,
    not_true, not_false_iff, ite_true, ite_false, eq_self_iff_true]

lemma distance_symm (b1 b2 : Ball) :
    distance (b1.x, b1.y) (b2.x, b2.y) = distance (b2.x, b2.y) (b1.x, b1.y) := by
  rw [distance, distance]
  congr 1
  ring

/-- C5: every live set produced by the placement loop — each candidate
accepted only when `is_collide` fails against every already-accepted ball —
is pairwise non-overlapping: center distance at least the sum of the radii
for every pair of distinct accepted balls. -/
theorem placement_no_overlap (l : List Ball) (h : Placed l) :
    l.Pairwise (fun a b =>
      a.radius + b.radius ≤ distance (a.x, a.y) (b.x, b.y)) := by
  induction h with
  | nil => exact List.Pairwise.nil
  | snoc l b hl hcheck ih =>
      rw [List.pairwise_append]
      refine ⟨ih, List.pairwise_singleton _ _, ?_⟩
      intro a ha c hc
      rw [List.mem_singleton] at hc
      subst hc
      have hna := hcheck a ha
      rw [Ball.is_collide] at hna
      push_neg at hna
      rw [distance_symm] at hna
      linarith

/-- First ball of the placement witness, at the origin. -/
noncomputable def ballFarA : Ball := ⟨0, 0, 2, 0, 0⟩

/-- Second ball of the placement witness, 100 units away. -/
noncomputable def ballFarB : Ball := ⟨100, 0, 2, 0, 0⟩

lemma ballFar_dist :
    distance (ballFarB.x, ballFarB.y) (ballFarA.x, ballFarA.y) = 100 := by
  rw [distance]
  rw [show (ballFarB.x - ballFarA.x) ^ 2 + (ballFarB.y - ballFarA.y) ^ 2 =
      (100 : ℝ) ^ 2 by norm_num [ballFarA, ballFarB]]
  exact Real.sqrt_sq (by norm_num)

lemma ballFar_placed : Placed [ballFarA, ballFarB] := by
  have h0 : Placed [ballFarA] := Placed.snoc [] ballFarA Placed.nil (by simp)
  have h1 : Placed ([ballFarA] ++ [ballFarB]) := by
    refine Placed.snoc [ballFarA] ballFarB h0 ?_
    intro a ha
    rw [List.mem_singleton] at ha
    subst ha
    rw [Ball.is_collide, ballFar_dist]
    norm_num [ballFarA, ballFarB]
  simpa using h1

/-- Witness for C5 on a concrete two-ball placement. -/
theorem placement_no_overlap_witness :
    List.Pairwise (fun a b =>
        a.radius + b.radius ≤ distance (a.x, a.y) (b.x, b.y))
      [ballFarA, ballFarB] :=
  placement_no_overlap [ballFarA, ballFarB] ballFar_placed

lemma randint_mem (lo hi r : ℤ) (h : lo ≤ hi) :
    lo ≤ randint lo hi r ∧ randint lo hi r ≤ hi := by
  have hpos : (0 : ℤ) < hi - lo + 1 := by linarith
  constructor
  · have := Int.emod_nonneg r (ne_of_gt hpos)
    rw [randint]
    linarith
  · have := Int.emod_lt_of_pos r hpos
    rw [randint]
    linarith

/-- Counterexample to C9 as stated: a `float` radius whose value `1000` lies
far outside `[R_MIN, R_MAX]` is not rejected — construction succeeds. -/
theorem float_radius_not_rejected :
    (R_MAX : ℝ) < 1000 ∧
    ∃ b, initBall (PyArg.float 1000) PyArg.none 0 0 0 0 0 = Except.ok b := by
  constructor
  · norm_num [R_MAX, WIDTH, HEIGHT]
  · exact ⟨_, rfl⟩

/-- C9 (amended): construction fails fast for a supplied `int` radius
outside `[R_MIN, R_MAX]` and for a supplied numeric (`int` or `float`)
heading outside `[0, 2π]`; a non-`int` radius is not validated at all. -/
theorem construction_fails_fast (n : ℤ) (a : ℝ) (ai : ℤ)
    (hn : ¬ (R_MIN ≤ n ∧ n ≤ R_MAX))
    (ha : ¬ (0 ≤ a ∧ a ≤ 2 * Real.pi))
    (hai : ¬ (0 ≤ (ai : ℝ) ∧ (ai : ℝ) ≤ 2 * Real.pi)) :
    (∀ angleArg rR rV rA rx ry,
      ∃ s, initBall (PyArg.int n) angleArg rR rV rA rx ry = Except.error s) ∧
    (∀ radiusArg rR rV rA rx ry,
      ∃ s, initBall radiusArg (PyArg.float a) rR rV rA rx ry =
        Except.error s) ∧
    (∀ radiusArg rR rV rA rx ry,
      ∃ s, initBall radiusArg (PyArg.int ai) rR rV rA rx ry =
        Except.error s) := by
  refine ⟨?_, ?_, ?_⟩
  · intro angleArg rR rV rA rx ry
    exact ⟨_, by simp only [initBall]; rw [if_neg hn]⟩
  · intro radiusArg rR rV rA rx ry
    cases radiusArg with
    | int k =>
        by_cases hk : R_MIN ≤ k ∧ k ≤ R_MAX
        · exact ⟨_, by simp only [initBall]; rw [if_pos hk]; exact if_neg ha⟩
        · exact ⟨_, by simp only [initBall]; rw [if_neg hk]⟩
    | none => exact ⟨_, by simp only [initBall]; exact if_neg ha⟩
    | float x => exact ⟨_, by simp only [initBall]; exact if_neg ha⟩
    | other => exact ⟨_, by simp only [initBall]; exact if_neg ha⟩
  · intro radiusArg rR rV rA rx ry
    cases radiusArg with
    | int k =>
        by_cases hk : R_MIN ≤ k ∧ k ≤ R_MAX
        · exact ⟨_, by simp only [initBall]; rw [if_pos hk]; exact if_neg hai⟩
        · exact ⟨_, by simp only [initBall]; rw [if_neg hk]⟩
    | none => exact ⟨_, by simp only [initBall]; exact if_neg hai⟩
    | float x => exact ⟨_, by simp only [initBall]; exact if_neg hai⟩
    | other => exact ⟨_, by simp only [initBall]; exact if_neg hai⟩

/-- Witness for the amended C9: an `int` radius `300 > R_MAX` and a `float`
heading `7 > 2π` are both rejected. -/
theorem construction_fails_fast_witness :
    (∃ s, initBall (PyArg.int 300) PyArg.none 0 0 0 0 0 = Except.error s) ∧
    (∃ s, initBall PyArg.none (PyArg.float 7) 0 0 0 0 0 = Except.error s) := by
  have h := construction_fails_fast 300 7 (-1)
    (by rw [R_MAX, R_MIN, WIDTH, HEIGHT]; norm_num)
    (by
      rintro ⟨-, h7⟩
      have : Real.pi < 3.15 := Real.pi_lt_d2
      linarith)
    (by
      rintro ⟨h0, -⟩
      norm_num at h0)
  exact ⟨h.1 PyArg.none 0 0 0 0 0, h.2.1 PyArg.none 0 0 0 0 0⟩

/-- C10: a non-`int` radius argument (here an arbitrary `float`, including
values outside `[R_MIN, R_MAX]`) is silently ignored — the call behaves
exactly like one with no radius argument, succeeds, and assigns the
`randint(R_MIN, R_MAX)` draw, which always lies in `[R_MIN, R_MAX]`; an
angle argument that is neither `int` nor `float` is likewise ignored in
favour of the random heading `random() * 2π`. -/
theorem non_int_radius_ignored (x : ℝ) (rR : ℤ) (rV rA : ℝ) (rx ry : ℤ) :
    initBall (PyArg.float x) PyArg.other rR rV rA rx ry =
      initBall PyArg.none PyArg.none rR rV rA rx ry ∧
    R_MIN ≤ randint R_MIN R_MAX rR ∧ randint R_MIN R_MAX rR ≤ R_MAX ∧
    ∃ b, initBall (PyArg.float x) PyArg.other rR rV rA rx ry = Except.ok b ∧
      b.radius = (randint R_MIN R_MAX rR : ℝ) ∧
      b.angle = rA * (2 * Real.pi) := by
  have hmem := randint_mem R_MIN R_MAX rR
    (by rw [R_MIN, R_MAX, WIDTH, HEIGHT]; norm_num)
  exact ⟨rfl, hmem.1, hmem.2, ⟨_, rfl, rfl, rfl⟩⟩
